import Mathlib

/-!
Verification of the DineVerse multiplayer restaurant core.

The development shallowly embeds the room/session coordinator of the game:
the in-memory game database (`src/lib/game-database.ts`), the socket relay
handlers (`src/lib/socket-server.ts`), the chef flow controller
(`ChefFlowController` in `src/server.js`'s companion module) and the visitor
flow controller (`VisitorFlowController`).  JavaScript `Map`s are modelled as
insertion-ordered association lists, numbers as `Int`/`Nat`/`ℚ` as
appropriate, and every handler as a pure state-passing function.
-/

/-- Association-list model of a JavaScript `Map`: insertion order is
preserved, `set` on an existing key overwrites in place, `values` iterates in
insertion order. -/
def JMap (α β : Type) : Type := List (α × β)

namespace JMap

variable {α β : Type} [DecidableEq α]

instance [DecidableEq α] [DecidableEq β] : DecidableEq (JMap α β) :=
  inferInstanceAs (DecidableEq (List (α × β)))

instance : Membership (α × β) (JMap α β) := inferInstanceAs (Membership (α × β) (List (α × β)))

instance [Repr α] [Repr β] : Repr (JMap α β) := inferInstanceAs (Repr (List (α × β)))

/-- `new Map()` -/
def empty : JMap α β := []

/-- `map.get(k)` (as an option). -/
def find? : JMap α β → α → Option β
  | [], _ => none
  | (k0, v) :: t, k => if k0 = k then some v else find? t k

/-- `map.set(k, v)`: overwrite in place if the key exists, else append. -/
def set : JMap α β → α → β → JMap α β
  | [], k, v => [(k, v)]
  | (k0, v0) :: t, k, v => if k0 = k then (k, v) :: t else (k0, v0) :: set t k v

/-- `map.delete(k)` (keys are unique, so deleting the first entry suffices). -/
def erase : JMap α β → α → JMap α β
  | [], _ => []
  | (k0, v0) :: t, k => if k0 = k then t else (k0, v0) :: erase t k

/-- `map.size` -/
def size (m : JMap α β) : Nat := m.length

/-- `Array.from(map.values())` -/
def values (m : JMap α β) : List β := m.map Prod.snd

/-- The keys, in insertion order. -/
def keys (m : JMap α β) : List α := m.map Prod.fst

/-- `map.has(k)` -/
def contains (m : JMap α β) (k : α) : Bool := (m.find? k).isSome

end JMap

/-! ## `src/lib/game-database.ts` — the local game database -/

namespace GameDatabase

/-- `TableData` of `game-database.ts`. -/
structure TableData where
  id : Nat
  x : Int
  z : Int
  capacity : Nat
  isOccupied : Bool
  reservedBy : Option String
  reservedAt : Option Nat
  currentOrder : Option String
deriving DecidableEq, Repr

/-- `MenuItem` of `game-database.ts`.  `available` is an `Int` because the
JavaScript number can in principle be driven below zero. -/
structure MenuItem where
  id : String
  name : String
  price : Int
  available : Int
  description : String
  category : String
  cookingTime : Nat
deriving DecidableEq, Repr

/-- One line of an order as submitted by a caller: `{name, quantity, price}`
(the inventory functions ignore the price field). -/
structure LineItem where
  name : String
  quantity : Nat
  price : Int
deriving DecidableEq, Repr

/-- Order status enum of `game-database.ts`. -/
inductive OrderStatus where
  | pending | cooking | ready | served | cancelled
deriving DecidableEq, Repr

/-- `OrderData` of `game-database.ts`. -/
structure OrderData where
  id : String
  tableId : Nat
  items : List LineItem
  totalPrice : Int
  status : OrderStatus
  orderTime : Nat
  estimatedTime : Nat
  assignedChef : Option String
deriving DecidableEq, Repr

/-- The mutable fields of the `GameDatabase` class (the waiter record and the
listener registry play no part in the verified operations). -/
structure GameDB where
  tables : JMap Nat TableData
  menuItems : JMap String MenuItem
  orders : JMap String OrderData
deriving DecidableEq, Repr

/-- The static 6-table layout of `initializeTables`. -/
def tablePositions : List (Nat × Int × Int × Nat) :=
  [(1, -6, -6, 4), (2, 6, -6, 4), (3, -6, -1, 2), (4, 6, -1, 2), (5, -6, 4, 6), (6, 6, 4, 6)]

/-- `initializeTables`: every table starts unoccupied with no reservation. -/
def initializeTables : JMap Nat TableData :=
  tablePositions.foldl
    (fun m p => m.set p.1
      { id := p.1, x := p.2.1, z := p.2.2.1, capacity := p.2.2.2,
        isOccupied := false, reservedBy := none, reservedAt := none, currentOrder := none })
    JMap.empty

/-- `initializeMenu` of `game-database.ts`. -/
def initializeMenu : JMap String MenuItem :=
  (JMap.empty.set "burger"
      { id := "burger", name := "Burger", price := 15, available := 5,
        description := "Juicy beef patty with fresh vegetables", category := "food", cookingTime := 8 }).set
    "pizza"
      { id := "pizza", name := "Pizza", price := 18, available := 5,
        description := "Classic margherita with mozzarella", category := "food", cookingTime := 12 } |>.set
    "cold_coffee"
      { id := "cold_coffee", name := "Cold Coffee", price := 8, available := 10,
        description := "Refreshing iced coffee drink", category := "beverage", cookingTime := 3 }

/-- The freshly constructed singleton `gameDatabase`. -/
def initialDB : GameDB :=
  { tables := initializeTables, menuItems := initializeMenu, orders := JMap.empty }

/-- `findAvailableTable(requiredCapacity)`: linear scan over `tables.values()`
returning the first unoccupied table of sufficient capacity. -/
def findAvailableTable (db : GameDB) (requiredCapacity : Nat) : Option TableData :=
  db.tables.values.find? (fun t => !t.isOccupied && requiredCapacity ≤ t.capacity)

/-- `reserveTable(tableId, reservedBy)` (`Date.now()` passed explicitly). -/
def reserveTable (db : GameDB) (tableId : Nat) (reservedBy : String) (now : Nat) : Bool × GameDB :=
  match db.tables.find? tableId with
  | some table =>
    if table.isOccupied then (false, db)
    else
      let table' := { table with isOccupied := true, reservedBy := some reservedBy, reservedAt := some now }
      (true, { db with tables := db.tables.set tableId table' })
  | none => (false, db)

/-- `releaseTable(tableId)`. -/
def releaseTable (db : GameDB) (tableId : Nat) : Bool × GameDB :=
  match db.tables.find? tableId with
  | some table =>
    if table.isOccupied then
      let table' := { table with isOccupied := false, reservedBy := none, reservedAt := none, currentOrder := none }
      (true, { db with tables := db.tables.set tableId table' })
    else (false, db)
  | none => (false, db)

/-- `Array.from(this.menuItems.values()).find(m => m.name === name)`. -/
def findMenuByName (menu : JMap String MenuItem) (nm : String) : Option MenuItem :=
  menu.values.find? (fun m => m.name == nm)

/-- `checkAvailability(items)`: the whole batch must be present in the menu
with sufficient remaining availability. -/
def checkAvailability (db : GameDB) (items : List LineItem) : Bool :=
  items.all fun it =>
    match findMenuByName db.menuItems it.name with
    | none => false
    | some m => !(m.available < (it.quantity : Int))

/-- Decrement the `available` count of the first menu item with the given
name (mirrors mutating the record returned by `.find`). -/
def decrementFirstByName : JMap String MenuItem → String → Nat → JMap String MenuItem
  | [], _, _ => []
  | (k, m) :: t, nm, q =>
    if m.name == nm then (k, { m with available := m.available - (q : Int) }) :: t
    else (k, m) :: decrementFirstByName t nm q

/-- `updateInventory(items)`: re-checks availability, then decrements each
line's quantity from the matching menu item. -/
def updateInventory (db : GameDB) (items : List LineItem) : Bool × GameDB :=
  if !checkAvailability db items then (false, db)
  else
    let menu' := items.foldl (fun mn it => decrementFirstByName mn it.name it.quantity) db.menuItems
    (true, { db with menuItems := menu' })

/-- `createOrder(tableId, items)` (`Date.now()` and the random id suffix are
passed explicitly). -/
def createOrder (db : GameDB) (tableId : Nat) (items : List LineItem) (now : Nat) (rand : String) :
    Option OrderData × GameDB :=
  match db.tables.find? tableId with
  | none => (none, db)
  | some table =>
    if table.isOccupied = false then (none, db)
    else
      let orderId := "order_" ++ toString now ++ "_" ++ rand
      let totalPrice := items.foldl (fun sum it => sum + it.price) 0
      let estimatedTime := items.foldl
        (fun sum it =>
          match findMenuByName db.menuItems it.name with
          | some m => sum + m.cookingTime * it.quantity
          | none => sum + 0)
        0
      let order : OrderData :=
        { id := orderId, tableId := tableId, items := items, totalPrice := totalPrice,
          status := .pending, orderTime := now, estimatedTime := estimatedTime, assignedChef := none }
      let table' := { table with currentOrder := some orderId }
      (some order, { db with orders := db.orders.set orderId order, tables := db.tables.set tableId table' })

end GameDatabase

/-! ## `src/lib/socket-server.ts` — the authoritative relay -/

namespace SocketServer

/-- Player role. -/
inductive Role where
  | visitor | chef
deriving DecidableEq, Repr

/-- A 3D position (the spawn heights use the fractional value `1.6`). -/
structure Vec3 where
  x : ℚ
  y : ℚ
  z : ℚ
deriving DecidableEq, Repr

/-- A look rotation. -/
structure Rot where
  x : ℚ
  y : ℚ
deriving DecidableEq, Repr

/-- `PlayerData` of `socket-server.ts`. -/
structure PlayerData where
  id : String
  role : Role
  position : Vec3
  rotation : Rot
  username : String
deriving DecidableEq, Repr

/-- `TableData` of `socket-server.ts` (no reservation timestamp here). -/
structure TableData where
  id : Nat
  x : Int
  z : Int
  capacity : Nat
  isOccupied : Bool
  reservedBy : Option String
deriving DecidableEq, Repr

/-- Order status of `socket-server.ts` (no `cancelled` on this side). -/
inductive OrderStatus where
  | pending | cooking | ready | served
deriving DecidableEq, Repr

/-- `OrderData` of `socket-server.ts`. -/
structure OrderData where
  id : String
  dish : String
  price : Int
  tableId : Nat
  orderTime : Nat
  status : OrderStatus
  estimatedTime : Nat
deriving DecidableEq, Repr

/-- `RoomData` of `socket-server.ts`. -/
structure RoomData where
  id : String
  players : JMap String PlayerData
  orders : JMap String OrderData
  tables : JMap Nat TableData
  createdAt : Nat
deriving DecidableEq, Repr

/-- An item of a `place-order` payload: `{dish, quantity, price}`. -/
structure OrderItem where
  dish : String
  quantity : Nat
  price : Int
deriving DecidableEq, Repr

/-- `initializeRoomTables(room)`: populate the room with the static 6-table
layout, all unoccupied. -/
def initializeRoomTables (room : RoomData) : RoomData :=
  let tbls := GameDatabase.tablePositions.foldl
    (fun m p => m.set p.1
      { id := p.1, x := p.2.1, z := p.2.2.1, capacity := p.2.2.2, isOccupied := false, reservedBy := none })
    room.tables
  { room with tables := tbls }

/-- `getEstimatedCookingTime(dish)`: static lookup with default 10
(`cookingTimes[dish] || 10`; no dish maps to 0, so `||` is a plain default). -/
def getEstimatedCookingTime (dish : String) : Nat :=
  if dish = "Pasta Carbonara" then 8
  else if dish = "Grilled Steak" then 10
  else if dish = "Caesar Salad" then 5
  else if dish = "Tomato Soup" then 12
  else if dish = "Gourmet Burger" then 15
  else if dish = "Margherita Pizza" then 18
  else 10

/-- The role-dependent spawn position of the `join-room` handler. -/
def spawnPosition (role : Role) : Vec3 :=
  match role with
  | .chef => { x := 0, y := 1.6, z := -8 }
  | .visitor => { x := -8, y := 1.6, z := 10 }

/-- Outcome of a `join-room` request, as emitted to the joining socket. -/
inductive JoinOutcome where
  | roomFull
  | roleTaken
  | joined (pd : PlayerData)
deriving DecidableEq, Repr

/-- The body of the `join-room` handler once the room is in hand: capacity
check, role-uniqueness check, then insertion of the new player. -/
def joinRoomStep (room : RoomData) (sid : String) (role : Role) (username : String) :
    JoinOutcome × RoomData :=
  if 2 ≤ room.players.size then (.roomFull, room)
  else if room.players.values.any (fun p => p.role = role) then (.roleTaken, room)
  else
    let pd : PlayerData :=
      { id := sid, role := role, position := spawnPosition role, rotation := { x := 0, y := 0 }, username := username }
    (.joined pd, { room with players := room.players.set sid pd })

/-- The full `join-room` handler: fetch or create (and table-initialize) the
room, run the join step, store the resulting room. -/
def handleJoinRoom (rooms : JMap String RoomData) (roomId sid : String) (role : Role)
    (username : String) (now : Nat) : JoinOutcome × JMap String RoomData :=
  let room :=
    match rooms.find? roomId with
    | some r => r
    | none =>
      initializeRoomTables
        { id := roomId, players := JMap.empty, orders := JMap.empty, tables := JMap.empty, createdAt := now }
  let out := joinRoomStep room sid role username
  (out.1, rooms.set roomId out.2)

/-- The `disconnect` handler: remove the player from every room that holds
it, deleting rooms that become empty. -/
def handleDisconnect (rooms : JMap String RoomData) (sid : String) : JMap String RoomData :=
  match rooms with
  | [] => []
  | (rid, room) :: t =>
    let rest := handleDisconnect t sid
    if room.players.contains sid then
      let room' := { room with players := room.players.erase sid }
      if room'.players.size = 0 then rest else (rid, room') :: rest
    else (rid, room) :: rest

/-- The `book-table` handler's search loop: first free table with enough
capacity, in insertion order. -/
def findTableForSize (room : RoomData) (tableSize : Nat) : Option TableData :=
  room.tables.values.find? (fun t => !t.isOccupied && tableSize ≤ t.capacity)

/-- Result of a `place-order` request as observed by the requesting socket. -/
inductive PlaceOutcome where
  | ignored
  | placed (orderId : String)
deriving DecidableEq, Repr

/-- The `place-order` handler: for a visitor of an existing room it
unconditionally records a pending order (no table or inventory checks) and
acknowledges with `order-placed`. -/
def handlePlaceOrder (rooms : JMap String RoomData) (sid roomId : String)
    (items : List OrderItem) (tableId : Nat) (now : Nat) :
    PlaceOutcome × JMap String RoomData :=
  match rooms.find? roomId with
  | none => (.ignored, rooms)
  | some room =>
    match room.players.find? sid with
    | none => (.ignored, rooms)
    | some player =>
      if player.role ≠ Role.visitor then (.ignored, rooms)
      else
        let orderId := "order_" ++ toString now ++ "_" ++ sid
        let totalPrice := items.foldl (fun sum it => sum + it.price) 0
        let estTime := items.foldl (fun sum it => sum + getEstimatedCookingTime it.dish * it.quantity) 0
        let dishLabel := String.intercalate ", " (items.map (fun it => toString it.quantity ++ "x " ++ it.dish))
        let order : OrderData :=
          { id := orderId, dish := dishLabel, price := totalPrice, tableId := tableId,
            orderTime := now, status := .pending, estimatedTime := estTime }
        (.placed orderId, rooms.set roomId { room with orders := room.orders.set orderId order })

/-- The room invariant of the spec: at most two players, at most one player
per role. -/
def roomInvariant (room : RoomData) : Prop :=
  room.players.size ≤ 2 ∧ room.players.values.Pairwise (fun p q => p.role ≠ q.role)

instance (room : RoomData) : Decidable (roomInvariant room) := by
  unfold roomInvariant
  infer_instance

end SocketServer

/-! ## `ChefFlowController` (chef flow module shipped with `src/server.js`) -/

namespace ChefFlow

/-- Chef phase enum. -/
inductive ChefPhase where
  | spawn | tutorial | waitingForOrder | cooking | serving | complete
deriving DecidableEq, Repr

/-- The `currentOrder` snapshot held in `ChefState`. -/
structure ChefOrder where
  id : String
  dish : String
  tableId : Nat
  orderTime : ℚ
  estimatedTime : ℚ
deriving DecidableEq, Repr

/-- `ChefState` of the chef flow controller.  Times are rationals (seconds);
the score is an integer. -/
structure ChefState where
  phase : ChefPhase
  currentOrder : Option ChefOrder
  cookingProgress : ℚ
  timeRemaining : ℚ
  score : Int
  completedOrders : Nat
  isInKitchen : Bool
  tutorialCompleted : Bool
deriving DecidableEq, Repr

/-- The controller: its state together with the private
`cookingStartTime` field (milliseconds). -/
structure ChefCtrl where
  state : ChefState
  cookingStartTime : ℚ
deriving DecidableEq, Repr

/-- The initial controller state. -/
def initialChefCtrl : ChefCtrl :=
  { state :=
      { phase := .spawn, currentOrder := none, cookingProgress := 0, timeRemaining := 0,
        score := 0, completedOrders := 0, isInKitchen := false, tutorialCompleted := false },
    cookingStartTime := 0 }

/-- `getDishScore(dish)`: fixed per-dish base scores with default 100
(`scores[dish] || 100`; no dish maps to 0). -/
def getDishScore (dish : String) : Int :=
  if dish = "Pasta Carbonara" then 100
  else if dish = "Grilled Steak" then 150
  else if dish = "Caesar Salad" then 80
  else if dish = "Tomato Soup" then 120
  else if dish = "Gourmet Burger" then 200
  else if dish = "Margherita Pizza" then 180
  else 100

/-- `completeCooking()`: award `baseDishScore + floor(timeBonus * 10)` with
`timeBonus = max(0, estimatedTime - timeRemaining)`, bump the completed-order
count and move to `serving`. -/
def completeCooking (c : ChefCtrl) : ChefCtrl :=
  match c.state.currentOrder with
  | none => c
  | some o =>
    let timeBonus : ℚ := max 0 (o.estimatedTime - c.state.timeRemaining)
    let baseScore := getDishScore o.dish
    let earnedScore : Int := baseScore + ⌊timeBonus * 10⌋
    { c with state :=
      { c.state with
          score := c.state.score + earnedScore,
          completedOrders := c.state.completedOrders + 1,
          phase := .serving } }

/-- `updateCookingProgress(currentTime)`: elapsed-time sampling; progress is
clamped to 100 and reaching it auto-completes the cooking. -/
def updateCookingProgress (c : ChefCtrl) (currentTime : ℚ) : ChefCtrl :=
  match c.state.phase, c.state.currentOrder with
  | .cooking, some o =>
    let elapsed : ℚ := (currentTime - c.cookingStartTime) / 1000
    let progress : ℚ := min (elapsed / o.estimatedTime * 100) 100
    let c1 : ChefCtrl :=
      { c with state :=
        { c.state with cookingProgress := progress, timeRemaining := max (o.estimatedTime - elapsed) 0 } }
    if 100 ≤ progress then completeCooking c1 else c1
  | _, _ => c

/-- `serveOrder()`: explicit serve action, only from `serving`. -/
def serveOrder (c : ChefCtrl) : ChefCtrl :=
  if c.state.phase = .serving then
    { c with state :=
      { c.state with currentOrder := none, cookingProgress := 0, timeRemaining := 0, phase := .waitingForOrder } }
  else c

end ChefFlow

/-! ## `VisitorFlowController` (`src/unnamed/part_007`) -/

namespace VisitorFlow

/-- Visitor phase enum. -/
inductive VisitorPhase where
  | entrance | reception | booking | waiterApproaching | walkingToTable | atTable
  | seated | menuRequested | ordering | waiting | served | rating | complete
deriving DecidableEq, Repr

/-- The `currentOrder` snapshot held in `VisitorState`. -/
structure VCurrentOrder where
  dish : String
  price : Int
  orderTime : Nat
deriving DecidableEq, Repr

/-- `VisitorState` of the visitor flow controller. -/
structure VisitorState where
  phase : VisitorPhase
  currentTable : Option Nat
  selectedTableSize : Option Nat
  currentOrder : Option VCurrentOrder
  rating : Option Nat
  isAtReception : Bool
  isSeated : Bool
  proximityToNPC : Option String
  waiterApproached : Bool
  menuRequested : Bool
deriving DecidableEq, Repr

/-- The visitor-local `TableData` mirror. -/
structure VTable where
  id : Nat
  x : Int
  z : Int
  capacity : Nat
  isOccupied : Bool
  reservedBy : Option String
deriving DecidableEq, Repr

/-- The visitor-local `OrderData` record. -/
structure VOrder where
  id : String
  dish : String
  price : Int
  tableId : Nat
  orderTime : Nat
  status : SocketServer.OrderStatus
  estimatedTime : Nat
deriving DecidableEq, Repr

/-- The controller: its state plus the local table and order mirrors. -/
structure VisitorCtrl where
  state : VisitorState
  tables : JMap Nat VTable
  orders : JMap String VOrder
deriving DecidableEq, Repr

/-- The initial `VisitorState`. -/
def initialVisitorState : VisitorState :=
  { phase := .entrance, currentTable := none, selectedTableSize := none, currentOrder := none,
    rating := none, isAtReception := false, isSeated := false, proximityToNPC := none,
    waiterApproached := false, menuRequested := false }

/-- `initializeTables`: mirror `gameDatabase.getTables()` into the local map. -/
def initTables (db : GameDatabase.GameDB) : JMap Nat VTable :=
  db.tables.values.foldl
    (fun m t => m.set t.id
      { id := t.id, x := t.x, z := t.z, capacity := t.capacity,
        isOccupied := t.isOccupied, reservedBy := t.reservedBy })
    JMap.empty

/-- A freshly constructed controller over a given database snapshot. -/
def mkVisitorCtrl (db : GameDatabase.GameDB) : VisitorCtrl :=
  { state := initialVisitorState, tables := initTables db, orders := JMap.empty }

/-- `enterReception()`: `entrance → reception`. -/
def enterReception (c : VisitorCtrl) : VisitorCtrl :=
  if c.state.phase = .entrance then
    { c with state := { c.state with phase := .reception, isAtReception := true } }
  else c

/-- `startBooking(tableSize)`: `reception → booking`. -/
def startBooking (c : VisitorCtrl) (tableSize : Nat) : VisitorCtrl :=
  if c.state.phase = .reception then
    { c with state := { c.state with phase := .booking, selectedTableSize := some tableSize } }
  else c

/-- `assignTable(tableId)`: reserve through the database; on success mirror
the reservation locally and move to `waiter_approaching`.  Note: there is no
phase guard — success of `reserveTable` is the only gate.  (The delayed
`waiterApproached()` timer is modelled separately as its own transition.) -/
def assignTable (c : VisitorCtrl) (db : GameDatabase.GameDB) (tableId : Nat) (now : Nat) :
    VisitorCtrl × GameDatabase.GameDB :=
  let res := GameDatabase.reserveTable db tableId "visitor" now
  if res.1 then
    let tables' :=
      match c.tables.find? tableId with
      | some t => c.tables.set tableId { t with isOccupied := true, reservedBy := some "visitor" }
      | none => c.tables
    ({ c with
        tables := tables',
        state := { c.state with currentTable := some tableId, phase := .waiterApproaching, waiterApproached := true } },
      res.2)
  else (c, db)

/-- `waiterApproached()`: `waiter_approaching → walking_to_table`. -/
def waiterApproached (c : VisitorCtrl) : VisitorCtrl :=
  if c.state.phase = .waiterApproaching then
    { c with state := { c.state with phase := .walkingToTable } }
  else c

/-- `reachedTable()`: `walking_to_table → at_table`. -/
def reachedTable (c : VisitorCtrl) : VisitorCtrl :=
  if c.state.phase = .walkingToTable then
    { c with state := { c.state with phase := .atTable } }
  else c

/-- `sitDown()`: `at_table → seated`. -/
def sitDown (c : VisitorCtrl) : VisitorCtrl :=
  if c.state.phase = .atTable then
    { c with state := { c.state with phase := .seated, isSeated := true } }
  else c

/-- `requestMenu()`: `seated → menu_requested` (the delayed `menuShown()` is
its own transition). -/
def requestMenu (c : VisitorCtrl) : VisitorCtrl :=
  if c.state.phase = .seated then
    { c with state := { c.state with phase := .menuRequested, menuRequested := true } }
  else c

/-- `menuShown()`: `menu_requested → ordering`. -/
def menuShown (c : VisitorCtrl) : VisitorCtrl :=
  if c.state.phase = .menuRequested then
    { c with state := { c.state with phase := .ordering } }
  else c

/-- `seatAtTable()`: `walking_to_table → seated`. -/
def seatAtTable (c : VisitorCtrl) : VisitorCtrl :=
  if c.state.phase = .walkingToTable then
    { c with state := { c.state with phase := .seated, isSeated := true } }
  else c

/-- `startOrdering()`: `seated → ordering`. -/
def startOrdering (c : VisitorCtrl) : VisitorCtrl :=
  if c.state.phase = .seated then
    { c with state := { c.state with phase := .ordering } }
  else c

/-- `placeOrder(items)`: guarded by `phase === "ordering"` and a truthy
`currentTable` (so table id 0 would also be refused); creates the database
order and on success snapshots it locally and moves to `waiting`. -/
def placeOrder (c : VisitorCtrl) (db : GameDatabase.GameDB) (items : List GameDatabase.LineItem)
    (now : Nat) (rand : String) : VisitorCtrl × GameDatabase.GameDB :=
  match c.state.phase, c.state.currentTable with
  | .ordering, some tid =>
    if tid = 0 then (c, db)
    else
      match GameDatabase.createOrder db tid items now rand with
      | (some order, db') =>
        let dishLabel := String.intercalate ", " (items.map (fun it => toString it.quantity ++ "x " ++ it.name))
        let price := items.foldl (fun sum it => sum + it.price) 0
        let od : VOrder :=
          { id := order.id, dish := dishLabel, price := price, tableId := tid,
            orderTime := now, status := .pending, estimatedTime := order.estimatedTime }
        ({ c with
            orders := c.orders.set order.id od,
            state := { c.state with currentOrder := some { dish := dishLabel, price := price, orderTime := now }, phase := .waiting } },
          db')
      | (none, db') => (c, db')
  | _, _ => (c, db)

/-- `updateOrderStatus(orderId, status)`: guarded only by the order's
existence; mutates the stored status and, when the status is `served` and
the dish matches the current order, jumps the phase to `served`. -/
def updateOrderStatus (c : VisitorCtrl) (orderId : String) (status : SocketServer.OrderStatus) :
    VisitorCtrl :=
  match c.orders.find? orderId with
  | none => c
  | some o =>
    let orders' := c.orders.set orderId { o with status := status }
    if status = .served ∧ c.state.currentOrder.map (fun co => co.dish) = some o.dish then
      { c with orders := orders', state := { c.state with phase := .served } }
    else
      { c with orders := orders' }

/-- `submitRating(rating)`: `served → complete`. -/
def submitRating (c : VisitorCtrl) (rating : Nat) : VisitorCtrl :=
  if c.state.phase = .served then
    { c with state := { c.state with rating := some rating, phase := .complete } }
  else c

end VisitorFlow

/-! ## Concrete fixtures used by the scenario witnesses -/

/-- A line of an order batch is unsatisfiable when the item is missing from
the menu or its remaining availability is below the requested quantity. -/
def GameDatabase.badLine (db : GameDatabase.GameDB) (it : GameDatabase.LineItem) : Prop :=
  match GameDatabase.findMenuByName db.menuItems it.name with
  | none => True
  | some m => m.available < (it.quantity : Int)

instance (db : GameDatabase.GameDB) (it : GameDatabase.LineItem) :
    Decidable (GameDatabase.badLine db it) := by
  unfold GameDatabase.badLine
  exact match GameDatabase.findMenuByName db.menuItems it.name with
    | none => inferInstanceAs (Decidable True)
    | some m => inferInstanceAs (Decidable (_ < _))

/-- Scenario A database: tables 1, 3, 4 and 6 reserved, so only table 2
(capacity 4) and table 5 (capacity 6) remain free. -/
def scenarioA_db : GameDatabase.GameDB :=
  (GameDatabase.reserveTable
    (GameDatabase.reserveTable
      (GameDatabase.reserveTable
        (GameDatabase.reserveTable GameDatabase.initialDB 1 "x" 0).2 3 "x" 0).2 4 "x" 0).2 6 "x" 0).2

/-- Scenario B database: three burgers already sold, so only 2 remain. -/
def scenarioB_db : GameDatabase.GameDB :=
  (GameDatabase.updateInventory GameDatabase.initialDB
    [{ name := "Burger", quantity := 3, price := 45 }]).2

/-- Scenario B order batch: three burgers. -/
def scenarioB_items : List GameDatabase.LineItem :=
  [{ name := "Burger", quantity := 3, price := 45 }]

/-- A database with table 1 reserved (used by the order-creation witness). -/
def occupiedTable1_db : GameDatabase.GameDB :=
  (GameDatabase.reserveTable GameDatabase.initialDB 1 "visitor" 0).2

/-- Scenario C chef controller: cooking an order whose estimated time is 10
seconds, with the cooking-start timestamp at 0 ms. -/
def scenarioC_chef : ChefFlow.ChefCtrl :=
  { state :=
      { phase := .cooking,
        currentOrder := some { id := "o1", dish := "Grilled Steak", tableId := 1, orderTime := 0, estimatedTime := 10 },
        cookingProgress := 0, timeRemaining := 10, score := 0, completedOrders := 0,
        isInKitchen := true, tutorialCompleted := true },
    cookingStartTime := 0 }

/-- An empty room record for the room id `"R"` (only used as a `getD`
default below; the fixtures never actually fall back to it). -/
def emptyRoomR : SocketServer.RoomData :=
  SocketServer.initializeRoomTables
    { id := "R", players := JMap.empty, orders := JMap.empty, tables := JMap.empty, createdAt := 0 }

/-- A session store holding one room `"R"` with a single visitor `"s1"`. -/
def roomsOneVisitor : JMap String SocketServer.RoomData :=
  (SocketServer.handleJoinRoom JMap.empty "R" "s1" .visitor "ann" 0).2

/-- The room of `roomsOneVisitor`. -/
def roomR1 : SocketServer.RoomData := (roomsOneVisitor.find? "R").getD emptyRoomR

/-- The same store after a chef `"s2"` also joined: the room is full. -/
def roomsTwoPlayers : JMap String SocketServer.RoomData :=
  (SocketServer.handleJoinRoom roomsOneVisitor "R" "s2" .chef "ben" 1).2

/-- The full room of `roomsTwoPlayers`. -/
def roomR2 : SocketServer.RoomData := (roomsTwoPlayers.find? "R").getD emptyRoomR

/-- A visitor controller parked in the terminal `complete` phase (not the
source phase of any forward transition). -/
def visitorComplete : VisitorFlow.VisitorCtrl :=
  { VisitorFlow.mkVisitorCtrl GameDatabase.initialDB with
      state := { VisitorFlow.initialVisitorState with phase := .complete } }

/-! ## General lemmas about the `JMap` model -/

namespace JMap

variable {α β : Type} [DecidableEq α]

@[simp] theorem find?_nil (k : α) : (empty : JMap α β).find? k = none := rfl

@[simp] theorem find?_set_self (m : JMap α β) (k : α) (v : β) :
    (m.set k v).find? k = some v := by
  induction m with
  | nil => simp [set, find?]
  | cons hd t ih =>
    obtain ⟨k0, v0⟩ := hd
    by_cases h : k0 = k
    · simp [set, find?, h]
    · simp [set, find?, h, ih]

theorem find?_set_ne (m : JMap α β) (k k' : α) (v : β) (h : k ≠ k') :
    (m.set k v).find? k' = m.find? k' := by
  induction m with
  | nil => simp [set, find?, h]
  | cons hd t ih =>
    obtain ⟨k0, v0⟩ := hd
    by_cases h0 : k0 = k
    · subst h0
      simp [set, find?, h]
    · simp only [set, if_neg h0]
      by_cases h1 : k0 = k'
      · simp [find?, h1]
      · simp [find?, h1, ih]

theorem size_set_le (m : JMap α β) (k : α) (v : β) :
    (m.set k v).size ≤ m.size + 1 := by
  induction m with
  | nil => simp [set, size]
  | cons hd t ih =>
    obtain ⟨k0, v0⟩ := hd
    by_cases h : k0 = k
    · simp [set, size, h]
    · simpa [set, size, h] using ih

theorem mem_values_set (m : JMap α β) (k : α) (v b : β)
    (hb : b ∈ (m.set k v).values) : b ∈ m.values ∨ b = v := by
  induction m with
  | nil =>
    simp [set, values] at hb
    exact Or.inr hb
  | cons hd t ih =>
    obtain ⟨k0, v0⟩ := hd
    by_cases h : k0 = k
    · simp only [set, if_pos h, values, List.map_cons, List.mem_cons] at hb
      rcases hb with hb | hb
      · exact Or.inr hb
      · exact Or.inl (by simp [values, hb])
    · simp only [set, if_neg h, values, List.map_cons, List.mem_cons] at hb
      rcases hb with hb | hb
      · exact Or.inl (by simp [values, hb])
      · rcases ih hb with h1 | h1
        · exact Or.inl (by simp [values] at h1 ⊢; exact Or.inr h1)
        · exact Or.inr h1

theorem pairwise_values_set {R : β → β → Prop} (m : JMap α β) (k : α) (v : β)
    (hall : ∀ b ∈ m.values, R b v ∧ R v b)
    (hpw : m.values.Pairwise R) : (m.set k v).values.Pairwise R := by
  induction m with
  | nil => simp [set, values]
  | cons hd t ih =>
    obtain ⟨k0, v0⟩ := hd
    have hcons : values ((k0, v0) :: t) = v0 :: values t := rfl
    rw [hcons] at hall hpw
    simp only [List.pairwise_cons] at hpw
    by_cases h : k0 = k
    · simp only [set, if_pos h, values, List.map_cons, List.pairwise_cons]
      refine ⟨fun b hb => ?_, hpw.2⟩
      exact (hall b (List.mem_cons_of_mem _ hb)).2
    · simp only [set, if_neg h]
      rw [show values ((k0, v0) :: set t k v) = v0 :: values (set t k v) from rfl]
      simp only [List.pairwise_cons]
      refine ⟨fun b hb => ?_, ?_⟩
      · rcases mem_values_set t k v b hb with h1 | h1
        · exact hpw.1 b h1
        · subst h1
          exact (hall v0 (List.mem_cons_self _ _)).1
      · exact ih (fun b hb => hall b (List.mem_cons_of_mem _ hb)) hpw.2

theorem find?_eq_none_of_not_mem_keys (m : JMap α β) (k : α)
    (h : k ∉ m.keys) : m.find? k = none := by
  induction m with
  | nil => rfl
  | cons hd t ih =>
    obtain ⟨k0, v0⟩ := hd
    simp only [keys, List.map_cons, List.mem_cons] at h
    push_neg at h
    simp [find?, Ne.symm h.1, ih h.2]


end JMap

/-! ## General list lemmas -/

theorem foldl_add_eq_sum {α M : Type} [AddCommMonoid M] (f : α → M) (l : List α) (init : M) :
    l.foldl (fun sum a => sum + f a) init = init + (l.map f).sum := by
  induction l generalizing init with
  | nil => simp
  | cons hd t ih =>
    simp only [List.foldl_cons, List.map_cons, List.sum_cons, ih, add_assoc]

theorem find?_eq_some_first {α : Type} {p : α → Bool} {l : List α} {a : α}
    (h : l.find? p = some a) :
    ∃ pre post, l = pre ++ a :: post ∧ ∀ b ∈ pre, p b = false := by
  induction l with
  | nil => simp [List.find?] at h
  | cons hd t ih =>
    by_cases hp : p hd
    · refine ⟨[], t, ?_, by simp⟩
      rw [List.find?_cons_of_pos _ hp] at h
      simp at h
      simp [h]
    · rw [List.find?_cons_of_neg _ (by simpa using hp)] at h
      obtain ⟨pre, post, heq, hpre⟩ := ih h
      refine ⟨hd :: pre, post, by simp [heq], ?_⟩
      intro b hb
      rcases List.mem_cons.mp hb with rfl | hb
      · simpa using hp
      · exact hpre b hb

/-! ## Claim theorems -/

/-- C2: `reserveTable(tableId, who)` is exclusive: it succeeds exactly when
the table exists and is currently unoccupied, in which case it sets the
occupancy flag, the reserving party and the timestamp of that table and
touches nothing else; otherwise it returns `false` leaving the database
unchanged.  Consequently, of two reservation requests for the same table the
second observes `isOccupied = true` and fails without modifying anything. -/
theorem reserveTable_exclusive (db : GameDatabase.GameDB) (tid : Nat) (w : String) (now : Nat) :
    (∀ t, db.tables.find? tid = some t → t.isOccupied = false →
      GameDatabase.reserveTable db tid w now =
        (true, { db with tables := db.tables.set tid ({ t with isOccupied := true, reservedBy := some w, reservedAt := some now }) }))
    ∧ (db.tables.find? tid = none → GameDatabase.reserveTable db tid w now = (false, db))
    ∧ (∀ t, db.tables.find? tid = some t → t.isOccupied = true →
        GameDatabase.reserveTable db tid w now = (false, db))
    ∧ (∀ t w2 n2, db.tables.find? tid = some t → t.isOccupied = false →
        GameDatabase.reserveTable (GameDatabase.reserveTable db tid w now).2 tid w2 n2 =
          (false, (GameDatabase.reserveTable db tid w now).2)) := by
  refine ⟨fun t ht hocc => ?_, fun hnone => ?_, fun t ht hocc => ?_, fun t w2 n2 ht hocc => ?_⟩
  · simp [GameDatabase.reserveTable, ht, hocc]
  · simp [GameDatabase.reserveTable, hnone]
  · simp [GameDatabase.reserveTable, ht, hocc]
  · have h1 : GameDatabase.reserveTable db tid w now =
        (true, { db with tables := db.tables.set tid ({ t with isOccupied := true, reservedBy := some w, reservedAt := some now }) }) := by
      simp [GameDatabase.reserveTable, ht, hocc]
    rw [h1]
    simp [GameDatabase.reserveTable, JMap.find?_set_self]

/-- C2 witness: on the fresh database, reserving table 3 succeeds and a
second request for table 3 fails, leaving the database unchanged. -/
theorem reserveTable_exclusive_witness :
    GameDatabase.initialDB.tables.find? 3 =
      some { id := 3, x := -6, z := -1, capacity := 2, isOccupied := false, reservedBy := none, reservedAt := none, currentOrder := none }
    ∧ GameDatabase.reserveTable (GameDatabase.reserveTable GameDatabase.initialDB 3 "alice" 5).2 3 "bob" 6 =
        (false, (GameDatabase.reserveTable GameDatabase.initialDB 3 "alice" 5).2) := by
  refine ⟨by decide, ?_⟩
  exact (reserveTable_exclusive GameDatabase.initialDB 3 "alice" 5).2.2.2
    { id := 3, x := -6, z := -1, capacity := 2, isOccupied := false, reservedBy := none, reservedAt := none, currentOrder := none }
    "bob" 6 (by decide) rfl

/-- C3: `findAvailableTable(size)` is a first-fit linear scan: any returned
table is unoccupied with sufficient capacity and is the first such table in
insertion order, and `none` is returned exactly when no table qualifies.  In
scenario A (only the capacity-4 table 2 and the capacity-6 table 5 free), a
size-2 request gets table 2, the capacity-4 one. -/
theorem findAvailableTable_first_fit (db : GameDatabase.GameDB) (size : Nat) :
    (∀ t, GameDatabase.findAvailableTable db size = some t →
        t.isOccupied = false ∧ size ≤ t.capacity)
    ∧ (GameDatabase.findAvailableTable db size = none ↔
        ∀ t ∈ db.tables.values, ¬(t.isOccupied = false ∧ size ≤ t.capacity))
    ∧ (∀ t, GameDatabase.findAvailableTable db size = some t →
        ∃ pre post, db.tables.values = pre ++ t :: post ∧
          ∀ u ∈ pre, ¬(u.isOccupied = false ∧ size ≤ u.capacity))
    ∧ ((GameDatabase.findAvailableTable scenarioA_db 2).map
        (fun t => (t.id, t.capacity)) = some (2, 4)) := by
  refine ⟨fun t ht => ?_, ?_, fun t ht => ?_, by decide⟩
  · have := List.find?_some ht
    simpa using this
  · rw [GameDatabase.findAvailableTable, List.find?_eq_none]
    constructor
    · intro h t hmem hcond
      have := h t hmem
      simp [hcond.1, hcond.2] at this
    · intro h t hmem
      have := h t hmem
      simpa using this
  · obtain ⟨pre, post, heq, hpre⟩ := find?_eq_some_first ht
    refine ⟨pre, post, heq, fun u hu => ?_⟩
    have := hpre u hu
    simpa using this

/-- C3 witness: on the fresh database a size-2 request is served by table 1
(the first table in insertion order), which is unoccupied with capacity 4. -/
theorem findAvailableTable_first_fit_witness :
    (GameDatabase.findAvailableTable GameDatabase.initialDB 2).map (fun t => t.id) = some 1
    ∧ ∀ t, GameDatabase.findAvailableTable GameDatabase.initialDB 2 = some t →
        t.isOccupied = false ∧ 2 ≤ t.capacity := by
  exact ⟨by decide, fun t ht => (findAvailableTable_first_fit GameDatabase.initialDB 2).1 t ht⟩

/-- C4: `createOrder(tableId, items)` returns `null` whenever the table does
not exist or is not occupied; on success the order is `pending`, its total
price is the sum of the already-multiplied line prices, and its estimated
time is the sum over lines of the menu item's cook time times the quantity
(0 for a line whose name is not on the menu). -/
theorem createOrder_spec (db : GameDatabase.GameDB) (tid : Nat)
    (items : List GameDatabase.LineItem) (now : Nat) (rand : String) :
    (db.tables.find? tid = none → GameDatabase.createOrder db tid items now rand = (none, db))
    ∧ (∀ t, db.tables.find? tid = some t → t.isOccupied = false →
        GameDatabase.createOrder db tid items now rand = (none, db))
    ∧ (∀ t, db.tables.find? tid = some t → t.isOccupied = true →
        ∃ o, (GameDatabase.createOrder db tid items now rand).1 = some o
          ∧ o.status = .pending
          ∧ o.totalPrice = (items.map (fun it => it.price)).sum
          ∧ o.estimatedTime = (items.map (fun it =>
              ((GameDatabase.findMenuByName db.menuItems it.name).map
                (fun m => m.cookingTime * it.quantity)).getD 0)).sum
          ∧ o.tableId = tid) := by
  refine ⟨fun hnone => ?_, fun t ht hocc => ?_, fun t ht hocc => ?_⟩
  · simp [GameDatabase.createOrder, hnone]
  · simp [GameDatabase.createOrder, ht, hocc]
  · have hbody : (fun (sum : Nat) (it : GameDatabase.LineItem) =>
        match GameDatabase.findMenuByName db.menuItems it.name with
        | some m => sum + m.cookingTime * it.quantity
        | none => sum + 0) =
        fun (sum : Nat) (it : GameDatabase.LineItem) =>
          sum + ((GameDatabase.findMenuByName db.menuItems it.name).map
            (fun m => m.cookingTime * it.quantity)).getD 0 := by
      funext s it
      cases h : GameDatabase.findMenuByName db.menuItems it.name <;> simp [h]
    refine ⟨{ id := "order_" ++ toString now ++ "_" ++ rand, tableId := tid, items := items,
              totalPrice := items.foldl (fun sum it => sum + it.price) 0, status := .pending,
              orderTime := now,
              estimatedTime := items.foldl
                (fun sum it =>
                  match GameDatabase.findMenuByName db.menuItems it.name with
                  | some m => sum + m.cookingTime * it.quantity
                  | none => sum + 0) 0,
              assignedChef := none }, ?_, rfl, ?_, ?_, rfl⟩
    · simp [GameDatabase.createOrder, ht, hocc]
    · show items.foldl (fun sum it => sum + it.price) 0 = _
      rw [foldl_add_eq_sum]
      exact zero_add _
    · show items.foldl _ 0 = _
      rw [hbody, foldl_add_eq_sum]
      exact zero_add _

/-- C4 witness: with table 1 reserved, ordering two burgers (line price 30)
yields a pending order with total 30 and estimated time 16 = 8 · 2; on the
fresh (unoccupied) database the same call returns `null`. -/
theorem createOrder_spec_witness :
    (∃ o, (GameDatabase.createOrder occupiedTable1_db 1
        [{ name := "Burger", quantity := 2, price := 30 }] 7 "r").1 = some o
      ∧ o.status = .pending ∧ o.totalPrice = 30 ∧ o.estimatedTime = 16)
    ∧ GameDatabase.createOrder GameDatabase.initialDB 1
        [{ name := "Burger", quantity := 2, price := 30 }] 7 "r" = (none, GameDatabase.initialDB) := by
  constructor
  · obtain ⟨o, h1, h2, h3, h4, h5⟩ :=
      (createOrder_spec occupiedTable1_db 1 [{ name := "Burger", quantity := 2, price := 30 }] 7 "r").2.2
        { id := 1, x := -6, z := -6, capacity := 4, isOccupied := true, reservedBy := some "visitor", reservedAt := some 0, currentOrder := none }
        (by decide) rfl
    exact ⟨o, h1, h2, h3.trans (by decide), h4.trans (by decide)⟩
  · exact (createOrder_spec GameDatabase.initialDB 1 [{ name := "Burger", quantity := 2, price := 30 }] 7 "r").2.1
      { id := 1, x := -6, z := -6, capacity := 4, isOccupied := false, reservedBy := none, reservedAt := none, currentOrder := none }
      (by decide) rfl

/-- C5: inventory decrement is all-or-nothing: `checkAvailability` is false
exactly when some line is missing from the menu or under-stocked, in which
case `updateInventory` returns false having decremented nothing; only when
the whole batch checks out does `updateInventory` return true. -/
theorem inventory_all_or_nothing (db : GameDatabase.GameDB) (items : List GameDatabase.LineItem) :
    (GameDatabase.checkAvailability db items = false ↔ ∃ it ∈ items, GameDatabase.badLine db it)
    ∧ (GameDatabase.checkAvailability db items = false →
        GameDatabase.updateInventory db items = (false, db))
    ∧ (GameDatabase.checkAvailability db items = true →
        (GameDatabase.updateInventory db items).1 = true) := by
  refine ⟨?_, fun h => ?_, fun h => ?_⟩
  · rw [GameDatabase.checkAvailability, ← Bool.not_eq_true, List.all_eq_true]
    push_neg
    constructor
    · rintro ⟨it, hmem, hfail⟩
      refine ⟨it, hmem, ?_⟩
      revert hfail
      cases h : GameDatabase.findMenuByName db.menuItems it.name <;>
        simp [GameDatabase.badLine, h]
    · rintro ⟨it, hmem, hbad⟩
      refine ⟨it, hmem, ?_⟩
      revert hbad
      cases h : GameDatabase.findMenuByName db.menuItems it.name <;>
        simp [GameDatabase.badLine, h]
  · simp [GameDatabase.updateInventory, h]
  · simp [GameDatabase.updateInventory, h]

/-- C5 witness (scenario B): with only 2 burgers remaining, a batch asking
for 3 burgers fails the availability check and `updateInventory` performs no
decrement at all. -/
theorem inventory_all_or_nothing_witness :
    GameDatabase.checkAvailability scenarioB_db scenarioB_items = false
    ∧ GameDatabase.updateInventory scenarioB_db scenarioB_items = (false, scenarioB_db) :=
  ⟨by decide, (inventory_all_or_nothing scenarioB_db scenarioB_items).2.1 (by decide)⟩

/-- C1: the `join-room` handler enforces the room invariant (at most 2
players, at most one per role): a join into a room already holding 2 players
is rejected with `room-full`, a join with an already-present role is
rejected with `role-taken` — both leaving the room's player map unchanged —
and a successful join preserves the invariant. -/
theorem joinRoom_capacity_and_role (room : SocketServer.RoomData) (sid : String)
    (role : SocketServer.Role) (u : String) :
    (2 ≤ room.players.size →
      SocketServer.joinRoomStep room sid role u = (.roomFull, room))
    ∧ (room.players.size < 2 →
        (room.players.values.any fun p => p.role = role) = true →
        SocketServer.joinRoomStep room sid role u = (.roleTaken, room))
    ∧ (SocketServer.roomInvariant room →
        SocketServer.roomInvariant (SocketServer.joinRoomStep room sid role u).2)
    ∧ (∀ rooms roomId now, rooms.find? roomId = some room → 2 ≤ room.players.size →
        (SocketServer.handleJoinRoom rooms roomId sid role u now).1 = .roomFull
        ∧ (SocketServer.handleJoinRoom rooms roomId sid role u now).2.find? roomId = some room) := by
  have hfull : 2 ≤ room.players.size →
      SocketServer.joinRoomStep room sid role u = (.roomFull, room) := by
    intro h
    simp [SocketServer.joinRoomStep, h]
  refine ⟨hfull, fun hlt hany => ?_, fun hinv => ?_, fun rooms roomId now hfind hsz => ?_⟩
  · simp [SocketServer.joinRoomStep, Nat.not_le.mpr hlt, hany]
  · by_cases h1 : 2 ≤ room.players.size
    · rw [hfull h1]
      exact hinv
    · by_cases h2 : (room.players.values.any fun p => p.role = role) = true
      · rw [SocketServer.joinRoomStep, if_neg h1, if_pos h2]
        exact hinv
      · rw [SocketServer.joinRoomStep, if_neg h1, if_neg h2]
        constructor
        · calc (room.players.set sid _).size ≤ room.players.size + 1 := JMap.size_set_le _ _ _
            _ ≤ 2 := by omega
        · apply JMap.pairwise_values_set
          · intro b hb
            have hnot : ∀ p ∈ room.players.values, ¬(p.role = role) := by
              simpa [List.any_eq_true] using h2
            exact ⟨fun hc => hnot b hb (by simpa using hc), fun hc => hnot b hb (by simpa using hc.symm)⟩
          · exact hinv.2
  · have h := hfull hsz
    constructor
    · simp [SocketServer.handleJoinRoom, hfind, h]
    · simp [SocketServer.handleJoinRoom, hfind, h, JMap.find?_set_self]

/-- C1 witness: joining the full two-player room is rejected with
`room-full`, joining the one-visitor room with a second visitor is rejected
with `role-taken` (both leaving the player map unchanged), and both fixture
rooms satisfy the invariant. -/
theorem joinRoom_capacity_and_role_witness :
    SocketServer.joinRoomStep roomR2 "s3" .visitor "cal" = (.roomFull, roomR2)
    ∧ SocketServer.joinRoomStep roomR1 "s2" .visitor "cal" = (.roleTaken, roomR1)
    ∧ SocketServer.roomInvariant (SocketServer.joinRoomStep roomR1 "s2" .chef "cal").2 := by
  refine ⟨?_, ?_, ?_⟩
  · exact (joinRoom_capacity_and_role roomR2 "s3" .visitor "cal").1 (by decide)
  · exact (joinRoom_capacity_and_role roomR1 "s2" .visitor "cal").2.1 (by decide) (by decide)
  · exact (joinRoom_capacity_and_role roomR1 "s2" .chef "cal").2.2.1 (by decide)

theorem keys_handleDisconnect_subset (rooms : JMap String SocketServer.RoomData) (sid : String) :
    (SocketServer.handleDisconnect rooms sid).keys ⊆ rooms.keys := by
  induction rooms with
  | nil => simp [SocketServer.handleDisconnect]
  | cons hd t ih =>
    obtain ⟨rid, room⟩ := hd
    simp only [SocketServer.handleDisconnect]
    by_cases h1 : room.players.contains sid = true
    · rw [if_pos h1]
      by_cases h2 : ({ room with players := room.players.erase sid } : SocketServer.RoomData).players.size = 0
      · rw [if_pos h2]
        intro k hk
        exact List.mem_cons_of_mem _ (ih hk)
      · rw [if_neg h2]
        intro k hk
        rcases List.mem_cons.mp hk with rfl | hk
        · exact List.mem_cons_self _ _
        · exact List.mem_cons_of_mem _ (ih hk)
    · rw [if_neg h1]
      intro k hk
      rcases List.mem_cons.mp hk with rfl | hk
      · exact List.mem_cons_self _ _
      · exact List.mem_cons_of_mem _ (ih hk)

theorem handleDisconnect_deletes_sole_room (rooms : JMap String SocketServer.RoomData)
    (roomId sid : String) (room : SocketServer.RoomData) (p : SocketServer.PlayerData)
    (hnd : rooms.keys.Nodup)
    (hfind : rooms.find? roomId = some room)
    (hsole : room.players = [(sid, p)]) :
    (SocketServer.handleDisconnect rooms sid).find? roomId = none := by
  induction rooms with
  | nil => simp [JMap.find?] at hfind
  | cons hd t ih =>
    obtain ⟨rid, r0⟩ := hd
    have hkeys : (rid :: JMap.keys t).Nodup := hnd
    by_cases h : rid = roomId
    · subst h
      rw [JMap.find?, if_pos rfl] at hfind
      have hr0 : r0 = room := by simpa using hfind
      subst hr0
      have hcont : r0.players.contains sid = true := by
        rw [hsole]
        simp [JMap.contains, JMap.find?]
      have hempty : ({ r0 with players := r0.players.erase sid } : SocketServer.RoomData).players.size = 0 := by
        rw [hsole]
        simp [JMap.erase, JMap.size]
      simp only [SocketServer.handleDisconnect, hcont, if_pos, hempty, if_true]
      apply JMap.find?_eq_none_of_not_mem_keys
      intro hmem
      exact (List.nodup_cons.mp hkeys).1 (keys_handleDisconnect_subset t sid hmem)
    · rw [JMap.find?, if_neg h] at hfind
      have ihr := ih (List.nodup_cons.mp hkeys).2 hfind
      simp only [SocketServer.handleDisconnect]
      by_cases h1 : r0.players.contains sid = true
      · rw [if_pos h1]
        by_cases h2 : ({ r0 with players := r0.players.erase sid } : SocketServer.RoomData).players.size = 0
        · rw [if_pos h2]
          exact ihr
        · rw [if_neg h2, JMap.find?, if_neg h]
          exact ihr
      · rw [if_neg h1, JMap.find?, if_neg h]
        exact ihr

/-- C9: when the last player of a room disconnects the room is deleted
immediately, and a later `join-room` with the same room id builds a
brand-new room: created at the join time, with an empty order ledger and a
full fresh 6-table inventory in which every table is unoccupied with no
reserving player. -/
theorem room_teardown_fresh_rejoin (rooms : JMap String SocketServer.RoomData)
    (roomId sid : String) (room : SocketServer.RoomData) (p : SocketServer.PlayerData)
    (hnd : rooms.keys.Nodup)
    (hfind : rooms.find? roomId = some room)
    (hsole : room.players = [(sid, p)]) :
    (SocketServer.handleDisconnect rooms sid).find? roomId = none
    ∧ ∀ sid2 role u now, ∃ room',
        (SocketServer.handleJoinRoom (SocketServer.handleDisconnect rooms sid) roomId sid2 role u now).2.find? roomId = some room'
        ∧ room'.createdAt = now
        ∧ room'.orders = JMap.empty
        ∧ room'.tables.size = 6
        ∧ ∀ t ∈ room'.tables.values, t.isOccupied = false ∧ t.reservedBy = none := by
  have h1 := handleDisconnect_deletes_sole_room rooms roomId sid room p hnd hfind hsole
  refine ⟨h1, fun sid2 role u now => ?_⟩
  refine ⟨{ id := roomId,
            players := JMap.empty.set sid2
              { id := sid2, role := role, position := SocketServer.spawnPosition role,
                rotation := { x := 0, y := 0 }, username := u },
            orders := JMap.empty, tables := emptyRoomR.tables, createdAt := now }, ?_, rfl, rfl, ?_, ?_⟩
  · have hstep : SocketServer.joinRoomStep
        (SocketServer.initializeRoomTables
          { id := roomId, players := JMap.empty, orders := JMap.empty, tables := JMap.empty, createdAt := now })
        sid2 role u =
        (.joined
            { id := sid2, role := role, position := SocketServer.spawnPosition role,
              rotation := { x := 0, y := 0 }, username := u },
          { id := roomId,
            players := JMap.empty.set sid2
              { id := sid2, role := role, position := SocketServer.spawnPosition role,
                rotation := { x := 0, y := 0 }, username := u },
            orders := JMap.empty, tables := emptyRoomR.tables, createdAt := now }) := rfl
    simp only [SocketServer.handleJoinRoom, h1, hstep]
    exact JMap.find?_set_self _ _ _
  · rfl
  · have hgoal : ∀ t ∈ emptyRoomR.tables.values, t.isOccupied = false ∧ t.reservedBy = none := by decide
    intro t ht
    exact hgoal t ht

/-- C9 witness: in the one-visitor fixture store, the visitor's disconnect
deletes room `"R"`, and a rejoin at time 9 recreates it fresh: created at 9,
empty orders, six tables, all free. -/
theorem room_teardown_fresh_rejoin_witness :
    (SocketServer.handleDisconnect roomsOneVisitor "s1").find? "R" = none
    ∧ ∃ room',
        (SocketServer.handleJoinRoom (SocketServer.handleDisconnect roomsOneVisitor "s1") "R" "s9" .chef "dot" 9).2.find? "R" = some room'
        ∧ room'.createdAt = 9
        ∧ room'.orders = JMap.empty
        ∧ room'.tables.size = 6
        ∧ ∀ t ∈ room'.tables.values, t.isOccupied = false ∧ t.reservedBy = none := by
  have h := room_teardown_fresh_rejoin roomsOneVisitor "R" "s1" roomR1
    { id := "s1", role := .visitor, position := SocketServer.spawnPosition .visitor,
      rotation := { x := 0, y := 0 }, username := "ann" }
    (by decide) (by rfl) (by rfl)
  exact ⟨h.1, h.2 "s9" .chef "dot" 9⟩

/-- C10: for a `place-order` message from the visitor of an existing room,
the relay always records a new pending order for the given table id — price
the sum of the submitted line prices, estimated time from the static
per-dish cook-time lookup (default 10) times quantity — with no check that
the table exists or is occupied and no inventory check, and it always
acknowledges the visitor (never a failure reply).  This holds for every
`tableId` and every `items` list. -/
theorem placeOrder_relay_unchecked (rooms : JMap String SocketServer.RoomData)
    (sid roomId : String) (items : List SocketServer.OrderItem) (tableId now : Nat)
    (room : SocketServer.RoomData) (player : SocketServer.PlayerData)
    (hroom : rooms.find? roomId = some room)
    (hplayer : room.players.find? sid = some player)
    (hrole : player.role = .visitor) :
    ∃ order : SocketServer.OrderData,
      SocketServer.handlePlaceOrder rooms sid roomId items tableId now =
        (.placed ("order_" ++ toString now ++ "_" ++ sid),
          rooms.set roomId { room with orders := room.orders.set ("order_" ++ toString now ++ "_" ++ sid) order })
      ∧ order.status = .pending
      ∧ order.price = (items.map (fun it => it.price)).sum
      ∧ order.estimatedTime =
          (items.map (fun it => SocketServer.getEstimatedCookingTime it.dish * it.quantity)).sum
      ∧ order.tableId = tableId := by
  refine ⟨{ id := "order_" ++ toString now ++ "_" ++ sid,
            dish := String.intercalate ", " (items.map (fun it => toString it.quantity ++ "x " ++ it.dish)),
            price := items.foldl (fun sum it => sum + it.price) 0,
            tableId := tableId, orderTime := now, status := .pending,
            estimatedTime := items.foldl
              (fun sum it => sum + SocketServer.getEstimatedCookingTime it.dish * it.quantity) 0 },
    ?_, rfl, ?_, ?_, rfl⟩
  · simp [SocketServer.handlePlaceOrder, hroom, hplayer, hrole]
  · show items.foldl (fun sum it => sum + it.price) 0 = _
    rw [foldl_add_eq_sum]
    exact zero_add _
  · show items.foldl _ 0 = _
    rw [foldl_add_eq_sum]
    exact zero_add _

/-- C10 witness: in the one-visitor fixture room, ordering 2 "Sushi" (an
unknown dish, so the default cook time 10 applies) for the nonexistent table
99 is accepted and recorded: price 12, estimated time 20, status pending —
even though table 99 is not in the room and "Sushi" is on no menu. -/
theorem placeOrder_relay_unchecked_witness :
    roomR1.tables.find? 99 = none
    ∧ ∃ order : SocketServer.OrderData,
        SocketServer.handlePlaceOrder roomsOneVisitor "s1" "R"
            [{ dish := "Sushi", quantity := 2, price := 12 }] 99 5 =
          (.placed "order_5_s1",
            roomsOneVisitor.set "R" { roomR1 with orders := roomR1.orders.set "order_5_s1" order })
        ∧ order.status = .pending
        ∧ order.price = 12
        ∧ order.estimatedTime = 20
        ∧ order.tableId = 99 := by
  refine ⟨by decide, ?_⟩
  obtain ⟨order, h1, h2, h3, h4, h5⟩ :=
    placeOrder_relay_unchecked roomsOneVisitor "s1" "R"
      [{ dish := "Sushi", quantity := 2, price := 12 }] 99 5 roomR1
      { id := "s1", role := .visitor, position := SocketServer.spawnPosition .visitor,
        rotation := { x := 0, y := 0 }, username := "ann" }
      (by rfl) (by rfl) rfl
  exact ⟨order, h1, h2, h3.trans (by decide), h4.trans (by decide), h5⟩

/-- C7: on cooking completion the chef earns exactly
`baseDishScore + floor(timeBonus * 10)` with
`timeBonus = max(0, estimatedTime - timeRemaining)`; in particular a known
dish finished with zero slack (`timeRemaining = estimatedTime`) earns exactly
its base score.  The base score is the fixed lookup with default 100. -/
theorem chef_score_formula (c : ChefFlow.ChefCtrl) (o : ChefFlow.ChefOrder)
    (h : c.state.currentOrder = some o) :
    (ChefFlow.completeCooking c).state.score =
      c.state.score + (ChefFlow.getDishScore o.dish + ⌊(max 0 (o.estimatedTime - c.state.timeRemaining)) * 10⌋)
    ∧ (c.state.timeRemaining = o.estimatedTime →
        (ChefFlow.completeCooking c).state.score = c.state.score + ChefFlow.getDishScore o.dish)
    ∧ (ChefFlow.completeCooking c).state.phase = .serving
    ∧ (ChefFlow.completeCooking c).state.completedOrders = c.state.completedOrders + 1 := by
  refine ⟨?_, fun hzero => ?_, ?_, ?_⟩
  · simp [ChefFlow.completeCooking, h]
  · simp [ChefFlow.completeCooking, h, hzero]
  · simp [ChefFlow.completeCooking, h]
  · simp [ChefFlow.completeCooking, h]

/-- C7 witness: the scenario-C chef (Grilled Steak, base 150) with
`timeRemaining = estimatedTime = 10` earns exactly 150; with
`timeRemaining = 15/2` the bonus is `floor(5/2 * 10) = 25`, total 175. -/
theorem chef_score_formula_witness :
    (ChefFlow.completeCooking scenarioC_chef).state.score = 150
    ∧ (ChefFlow.completeCooking
        { state :=
            { phase := .cooking,
              currentOrder := some { id := "o1", dish := "Grilled Steak", tableId := 1, orderTime := 0, estimatedTime := 10 },
              cookingProgress := 0, timeRemaining := 15/2, score := 0, completedOrders := 0,
              isInKitchen := true, tutorialCompleted := true },
          cookingStartTime := 0 }).state.score = 175 := by
  have hbase : ChefFlow.getDishScore "Grilled Steak" = 150 := by decide
  constructor
  · have h := (chef_score_formula scenarioC_chef
      { id := "o1", dish := "Grilled Steak", tableId := 1, orderTime := 0, estimatedTime := 10 } rfl).2.1
    rw [h rfl, hbase]
    decide
  · have h := (chef_score_formula
      { state :=
          { phase := .cooking,
            currentOrder := some { id := "o1", dish := "Grilled Steak", tableId := 1, orderTime := 0, estimatedTime := 10 },
            cookingProgress := 0, timeRemaining := 15/2, score := 0, completedOrders := 0,
            isInKitchen := true, tutorialCompleted := true },
        cookingStartTime := 0 }
      { id := "o1", dish := "Grilled Steak", tableId := 1, orderTime := 0, estimatedTime := 10 } rfl).1
    rw [h, hbase]
    have hfloor : ⌊((0 : ℚ) ⊔ (10 - 15/2)) * 10⌋ = 25 := by
      rw [show ((0 : ℚ) ⊔ (10 - 15/2)) * 10 = 25 by norm_num]
      norm_num
    show (0 : Int) + (150 + ⌊((0 : ℚ) ⊔ (10 - 15/2)) * 10⌋) = 175
    rw [hfloor]
    norm_num

/-- C8: while cooking with a current order, a time sample at `now` sets
`cookingProgress = min(elapsed/estimatedTime · 100, 100)` and
`timeRemaining = max(estimatedTime - elapsed, 0)` with
`elapsed = (now - cookingStartTime)/1000` seconds; once the elapsed time
reaches the estimated time, the progress is 100 and the phase has
auto-transitioned from `cooking` to `serving` with no explicit serve call,
while before that the phase stays `cooking`. -/
theorem cooking_progress_sampling (c : ChefFlow.ChefCtrl) (o : ChefFlow.ChefOrder) (now : ℚ)
    (hphase : c.state.phase = .cooking)
    (horder : c.state.currentOrder = some o)
    (hest : 0 < o.estimatedTime) :
    ((ChefFlow.updateCookingProgress c now).state.cookingProgress =
        min ((now - c.cookingStartTime) / 1000 / o.estimatedTime * 100) 100)
    ∧ ((ChefFlow.updateCookingProgress c now).state.timeRemaining =
        max (o.estimatedTime - (now - c.cookingStartTime) / 1000) 0)
    ∧ (o.estimatedTime ≤ (now - c.cookingStartTime) / 1000 →
        (ChefFlow.updateCookingProgress c now).state.phase = .serving
        ∧ (ChefFlow.updateCookingProgress c now).state.cookingProgress = 100)
    ∧ ((now - c.cookingStartTime) / 1000 < o.estimatedTime →
        (ChefFlow.updateCookingProgress c now).state.phase = .cooking
        ∧ (ChefFlow.updateCookingProgress c now).state.cookingProgress < 100) := by
  have hkey : (100 : ℚ) ≤ min ((now - c.cookingStartTime) / 1000 / o.estimatedTime * 100) 100 ↔
      o.estimatedTime ≤ (now - c.cookingStartTime) / 1000 := by
    rw [le_min_iff]
    constructor
    · rintro ⟨h1, -⟩
      have h2 : (1 : ℚ) ≤ (now - c.cookingStartTime) / 1000 / o.estimatedTime := by nlinarith
      rw [le_div_iff₀ hest, one_mul] at h2
      exact h2
    · intro h1
      have h2 : (1 : ℚ) ≤ (now - c.cookingStartTime) / 1000 / o.estimatedTime := by
        rw [le_div_iff₀ hest, one_mul]
        exact h1
      exact ⟨by nlinarith, le_refl _⟩
  by_cases hdone : o.estimatedTime ≤ (now - c.cookingStartTime) / 1000
  · have hprog : (100 : ℚ) ≤ min ((now - c.cookingStartTime) / 1000 / o.estimatedTime * 100) 100 :=
      hkey.mpr hdone
    have heq : ChefFlow.updateCookingProgress c now =
        ChefFlow.completeCooking
          { c with state :=
            { c.state with
                cookingProgress := min ((now - c.cookingStartTime) / 1000 / o.estimatedTime * 100) 100,
                timeRemaining := max (o.estimatedTime - (now - c.cookingStartTime) / 1000) 0 } } := by
      rw [ChefFlow.updateCookingProgress]
      rw [hphase, horder]
      simp only [if_pos hprog]
    have hmin : min ((now - c.cookingStartTime) / 1000 / o.estimatedTime * 100) 100 = 100 :=
      min_eq_right (le_min_iff.mp hprog).1
    refine ⟨?_, ?_, fun _ => ⟨?_, ?_⟩, fun hlt => absurd hdone (not_le.mpr hlt)⟩
    · rw [heq]
      simp [ChefFlow.completeCooking, horder, hmin]
    · rw [heq]
      simp [ChefFlow.completeCooking, horder]
    · rw [heq]
      simp [ChefFlow.completeCooking, horder]
    · rw [heq]
      simp [ChefFlow.completeCooking, horder, hmin]
  · have hprog : ¬ (100 : ℚ) ≤ min ((now - c.cookingStartTime) / 1000 / o.estimatedTime * 100) 100 :=
      fun hc => hdone (hkey.mp hc)
    have heq : ChefFlow.updateCookingProgress c now =
        { c with state :=
          { c.state with
              cookingProgress := min ((now - c.cookingStartTime) / 1000 / o.estimatedTime * 100) 100,
              timeRemaining := max (o.estimatedTime - (now - c.cookingStartTime) / 1000) 0 } } := by
      rw [ChefFlow.updateCookingProgress]
      rw [hphase, horder]
      simp only [if_neg hprog]
    refine ⟨by rw [heq], by rw [heq], fun hc => absurd hc hdone, fun _ => ⟨?_, ?_⟩⟩
    · rw [heq]
      exact hphase
    · rw [heq]
      show min _ _ < 100
      exact lt_of_not_le hprog

/-- C8 witness (scenario C): the scenario-C chef (estimated time 10 s,
cooking started at 0 ms) sampled at 10000 ms has progress 100 and has
auto-transitioned to `serving`; sampled at 5000 ms it has progress 50 and is
still `cooking`. -/
theorem cooking_progress_sampling_witness :
    ((ChefFlow.updateCookingProgress scenarioC_chef 10000).state.cookingProgress = 100
      ∧ (ChefFlow.updateCookingProgress scenarioC_chef 10000).state.phase = .serving)
    ∧ ((ChefFlow.updateCookingProgress scenarioC_chef 5000).state.cookingProgress = 50
      ∧ (ChefFlow.updateCookingProgress scenarioC_chef 5000).state.phase = .cooking) := by
  have o0 : ChefFlow.ChefOrder :=
    { id := "o1", dish := "Grilled Steak", tableId := 1, orderTime := 0, estimatedTime := 10 }
  constructor
  · have h := (cooking_progress_sampling scenarioC_chef
      { id := "o1", dish := "Grilled Steak", tableId := 1, orderTime := 0, estimatedTime := 10 }
      10000 rfl rfl (by norm_num)).2.2.1 (by norm_num [scenarioC_chef])
    exact ⟨h.2, h.1⟩
  · have h := cooking_progress_sampling scenarioC_chef
      { id := "o1", dish := "Grilled Steak", tableId := 1, orderTime := 0, estimatedTime := 10 }
      5000 rfl rfl (by norm_num)
    refine ⟨?_, (h.2.2.2 (by norm_num [scenarioC_chef])).1⟩
    rw [h.1]
    norm_num [scenarioC_chef]

/-- C6 counterexample: `assignTable` is a forward transition
(`booking → waiter_approaching`) with no source-phase guard.  Invoked on a
freshly constructed controller still in `entrance` (not its source phase
`booking`), with table 1 free, it changes the state — so not every forward
transition of the visitor machine is a phase-guarded no-op. -/
theorem visitor_guard_counterexample :
    (VisitorFlow.mkVisitorCtrl GameDatabase.initialDB).state.phase = .entrance
    ∧ (VisitorFlow.assignTable (VisitorFlow.mkVisitorCtrl GameDatabase.initialDB)
        GameDatabase.initialDB 1 0).1.state
        ≠ (VisitorFlow.mkVisitorCtrl GameDatabase.initialDB).state
    ∧ (VisitorFlow.assignTable (VisitorFlow.mkVisitorCtrl GameDatabase.initialDB)
        GameDatabase.initialDB 1 0).1.state.phase = .waiterApproaching := by
  refine ⟨rfl, ?_, ?_⟩
  · decide
  · decide

/-- C6 (amended): every forward transition of the visitor machine *except*
`assignTable` and `updateOrderStatus` is a no-op (ignored, not an error)
whenever the machine is not in that transition's source phase; `assignTable`
is instead guarded by reservation success (it is a no-op exactly when
`reserveTable` fails, regardless of phase) and `updateOrderStatus` by the
order's existence. -/
theorem visitor_guarded_transitions_noop (c : VisitorFlow.VisitorCtrl) :
    (c.state.phase ≠ .entrance → VisitorFlow.enterReception c = c)
    ∧ (∀ ts, c.state.phase ≠ .reception → VisitorFlow.startBooking c ts = c)
    ∧ (c.state.phase ≠ .waiterApproaching → VisitorFlow.waiterApproached c = c)
    ∧ (c.state.phase ≠ .walkingToTable → VisitorFlow.reachedTable c = c)
    ∧ (c.state.phase ≠ .atTable → VisitorFlow.sitDown c = c)
    ∧ (c.state.phase ≠ .seated → VisitorFlow.requestMenu c = c)
    ∧ (c.state.phase ≠ .menuRequested → VisitorFlow.menuShown c = c)
    ∧ (c.state.phase ≠ .walkingToTable → VisitorFlow.seatAtTable c = c)
    ∧ (c.state.phase ≠ .seated → VisitorFlow.startOrdering c = c)
    ∧ (∀ db items now rand, c.state.phase ≠ .ordering →
        VisitorFlow.placeOrder c db items now rand = (c, db))
    ∧ (∀ r, c.state.phase ≠ .served → VisitorFlow.submitRating c r = c)
    ∧ (∀ db tid now, (GameDatabase.reserveTable db tid "visitor" now).1 = false →
        VisitorFlow.assignTable c db tid now = (c, db))
    ∧ (∀ oid st, c.orders.find? oid = none → VisitorFlow.updateOrderStatus c oid st = c) := by
  refine ⟨fun h => ?_, fun ts h => ?_, fun h => ?_, fun h => ?_, fun h => ?_, fun h => ?_,
    fun h => ?_, fun h => ?_, fun h => ?_, fun db items now rand h => ?_, fun r h => ?_,
    fun db tid now h => ?_, fun oid st h => ?_⟩
  · simp [VisitorFlow.enterReception, h]
  · simp [VisitorFlow.startBooking, h]
  · simp [VisitorFlow.waiterApproached, h]
  · simp [VisitorFlow.reachedTable, h]
  · simp [VisitorFlow.sitDown, h]
  · simp [VisitorFlow.requestMenu, h]
  · simp [VisitorFlow.menuShown, h]
  · simp [VisitorFlow.seatAtTable, h]
  · simp [VisitorFlow.startOrdering, h]
  · rw [VisitorFlow.placeOrder]
    cases hp : c.state.phase <;> cases hct : c.state.currentTable <;> simp_all
  · simp [VisitorFlow.submitRating, h]
  · rw [VisitorFlow.assignTable]
    simp [h]
  · simp [VisitorFlow.updateOrderStatus, h]

/-- C6 (amended) witness: the fixture controller parked in the terminal
`complete` phase is left exactly unchanged by every phase-guarded
transition, and `assignTable` on an occupied table is also a no-op. -/
theorem visitor_guarded_transitions_noop_witness :
    VisitorFlow.enterReception visitorComplete = visitorComplete
    ∧ VisitorFlow.startBooking visitorComplete 2 = visitorComplete
    ∧ VisitorFlow.waiterApproached visitorComplete = visitorComplete
    ∧ VisitorFlow.reachedTable visitorComplete = visitorComplete
    ∧ VisitorFlow.sitDown visitorComplete = visitorComplete
    ∧ VisitorFlow.requestMenu visitorComplete = visitorComplete
    ∧ VisitorFlow.menuShown visitorComplete = visitorComplete
    ∧ VisitorFlow.seatAtTable visitorComplete = visitorComplete
    ∧ VisitorFlow.startOrdering visitorComplete = visitorComplete
    ∧ VisitorFlow.placeOrder visitorComplete GameDatabase.initialDB scenarioB_items 3 "r" =
        (visitorComplete, GameDatabase.initialDB)
    ∧ VisitorFlow.submitRating visitorComplete 5 = visitorComplete
    ∧ VisitorFlow.assignTable visitorComplete scenarioA_db 1 7 = (visitorComplete, scenarioA_db)
    ∧ VisitorFlow.updateOrderStatus visitorComplete "missing" .served = visitorComplete := by
  have h := visitor_guarded_transitions_noop visitorComplete
  refine ⟨h.1 (by decide), h.2.1 2 (by decide), h.2.2.1 (by decide), h.2.2.2.1 (by decide),
    h.2.2.2.2.1 (by decide), h.2.2.2.2.2.1 (by decide), h.2.2.2.2.2.2.1 (by decide),
    h.2.2.2.2.2.2.2.1 (by decide), h.2.2.2.2.2.2.2.2.1 (by decide),
    h.2.2.2.2.2.2.2.2.2.1 GameDatabase.initialDB scenarioB_items 3 "r" (by decide),
    h.2.2.2.2.2.2.2.2.2.2.1 5 (by decide),
    h.2.2.2.2.2.2.2.2.2.2.2.1 scenarioA_db 1 7 (by decide),
    h.2.2.2.2.2.2.2.2.2.2.2.2 "missing" .served (by decide)⟩
